import Mathlib

/-!
Verification of the KiCadPartsSyncer presence-and-sync coordination engine.

This file gives a shallow embedding, in Lean, of the core components of the
program:

* `infrastructure/git/remote_checker.py` — `check_remote_status` and its
  ahead/behind classification;
* `infrastructure/git/repo_status_poller.py` — `RepoStatusPoller._check_once`
  and `_run_loop`;
* `infrastructure/git/repo_puller.py` — `pull_once`;
* `infrastructure/ipc/endpoint_detector.py` — the debounce loop of
  `EndpointDetector._run`;
* `infrastructure/system/config.py` — `get_repository_remote_name`;
* `app/orchestrator.py` — the event handlers of `Orchestrator` and the
  single-flight pull/push job pipeline (`_start_git_op`, `_run_git_worker`,
  `_show_git_result`).

External effects (subprocess results, the process table, the version-control
client) are passed in as explicit data; each Python function becomes a pure
Lean function over that data, keeping the branch structure of the source.
-/

namespace KiCadPartsSyncer

/-! ## String helpers modelling Python primitives -/

/-- Substring test on character lists: does the haystack contain `needle` as a
contiguous run? -/
def listContainsSub (needle : List Char) : List Char → Bool
  | [] => needle.isEmpty
  | c :: t => needle.isPrefixOf (c :: t) || listContainsSub needle t

/-- Models the Python substring operator `needle in hay`. -/
def strContains (hay needle : String) : Bool :=
  listContainsSub needle.data hay.data

/-- Models Python `str.lower()` (ASCII case folding suffices for the strings
produced by this program). -/
def strLower (s : String) : String :=
  ⟨s.data.map Char.toLower⟩

/-- Models Python `str.strip()`: drops leading and trailing whitespace. -/
def strStrip (s : String) : String :=
  ⟨((s.data.dropWhile Char.isWhitespace).reverse.dropWhile Char.isWhitespace).reverse⟩

/-! ## Configuration (`infrastructure/system/config.py`)

`settings.json` is modelled by the fields the verified code paths read.
`loadOk` is whether `load_settings` succeeds (file present, valid JSON object);
the `Option String` fields are `none` when the key is absent or not a string,
mirroring the `isinstance` guards in the source. -/

structure Settings where
  loadOk : Bool
  repoNameOpt : Option String
  localPathOpt : Option String
  remoteNameOpt : Option String
  remoteLegacyOpt : Option String
  tokenAvailable : Bool
  pathIsDir : Bool
  deriving Repr, DecidableEq

/-- Embeds `config.get_repository_remote_name`: preferred key
`repository.remoteName` (stripped, if non-empty), legacy key
`repository.remote` (stripped, if non-empty), default `"origin"`. -/
def get_repository_remote_name (s : Settings) : String :=
  let fromLegacy :=
    match s.remoteLegacyOpt with
    | some r => if (strStrip r).isEmpty then "origin" else strStrip r
    | none => "origin"
  match s.remoteNameOpt with
  | some r => if (strStrip r).isEmpty then fromLegacy else strStrip r
  | none => fromLegacy

/-! ## Remote status checker (`infrastructure/git/remote_checker.py`)

The repository that `git.Repo` opens is modelled by the observations the
checker makes of it.  `check_remote_status` returns the outcome that the
Python function prints (`Except.ok` carrying the `status:` line) or the
`RuntimeError` it raises, paired with a flag recording whether the
`remote.fetch` call was reached. -/

structure RepoModel where
  openOk : Bool
  bare : Bool
  remotes : List String
  detached : Bool
  branch : String
  fetchOk : Bool
  remoteRefExists : Bool
  ahead : Nat
  behind : Nat
  deriving Repr, DecidableEq

/-- The ahead/behind classification table at the end of
`check_remote_status` (the `status:` value printed for each case). -/
def classifyAheadBehind (ahead behind : Nat) : String :=
  if ahead = 0 ∧ behind = 0 then "clean"
  else if 0 < ahead ∧ behind = 0 then "ahead"
  else if ahead = 0 ∧ 0 < behind then "behind"
  else "diverged"

/-- Embeds `check_remote_status`: the guard chain of the source in order
(config, credential, path, open, bare, remote membership, detached HEAD,
fetch, remote ref, ahead/behind classification).  The second component is
`true` exactly when the `remote.fetch` call is reached.  Note that the
source fixes `remote_name = "origin"`; the configured remote name is not
consulted. -/
def check_remote_status (cfg : Settings) (repo : RepoModel) :
    Except String String × Bool :=
  if !cfg.loadOk then (.error "settings.json not found or invalid", false)
  else if cfg.repoNameOpt.isNone then
    (.error "Missing repository.name in settings.json", false)
  else if !cfg.tokenAvailable then
    (.error "No credential found in Windows Credential Manager", false)
  else if !cfg.pathIsDir then
    (.error "Configured repository path does not exist or is not a directory", false)
  else if !repo.openOk then
    (.error "Failed to open git repository", false)
  else if repo.bare then
    (.error "Repository is bare; expected a working copy.", false)
  else
    let remote_name := "origin"
    if !repo.remotes.contains remote_name then
      (.error "Remote origin not found in repository.", false)
    else if repo.detached then (.ok "diverged", false)
    else if !repo.fetchOk then (.error "fetch failed", true)
    else if !repo.remoteRefExists then
      (.error "Remote branch not found after fetch.", true)
    else (.ok (classifyAheadBehind repo.ahead repo.behind), true)

/-! ## Status poller (`infrastructure/git/repo_status_poller.py`) -/

/-- Result of the `subprocess.run` invoking the remote checker, as seen by
`RepoStatusPoller._check_once`: either a completed process with exit code and
captured output, or any raised exception (timeout included). -/
inductive CheckProc where
  | completed (returncode : Int) (stdout stderr : String)
  | exn
  deriving Repr, DecidableEq

/-- Embeds `RepoStatusPoller._check_once`: interpret the checker subprocess
result as a normalized status string, following the rule chain of the
source. -/
def checkOnce (proc : CheckProc) : String :=
  match proc with
  | .exn => "unknown"
  | .completed returncode stdout stderr =>
    if returncode != 0 then "unknown"
    else
      let text := strLower (stdout ++ stderr)
      if strContains text "detached" && strContains text "head" then "diverged"
      else if strContains text "status: clean" || strContains text "status=clean" then
        "clean"
      else if strContains text "status: ahead" || strContains text "status=ahead"
          || strContains text "status: behind" || strContains text "status=behind"
          || strContains text "status: diverged" || strContains text "status=diverged" then
        "diverged"
      else if strContains text "ahead" || strContains text "behind"
          || strContains text "diverg" then
        "diverged"
      else if strContains text "up-to-date" || strContains text "up to date"
          || strContains text "in sync" then
        "clean"
      else "clean"

/-- Embeds `RepoStatusPoller._run_loop`: the sequence of statuses reported
through the callback, given the subprocess result of each iteration — an
initial `"unknown"` followed by the interpretation of each check. -/
def pollReports (procs : List CheckProc) : List String :=
  "unknown" :: procs.map checkOnce

/-! ## Pull job (`infrastructure/git/repo_puller.py`) -/

/-- The bounded timeout passed to `subprocess.run` by `pull_once`
(`GIT_PULL_TIMEOUT_SECONDS = 30` in the source). -/
def GIT_PULL_TIMEOUT_SECONDS : Nat := 30

/-- Result of the `subprocess.run` call inside `pull_once`, as the source
observes it: a completed process, a `TimeoutExpired`, a `FileNotFoundError`,
or any other exception. -/
inductive PullProc where
  | completed (returncode : Int) (stdout stderr : String)
  | timeoutExpired
  | fileNotFound
  | otherError (e : String)
  deriving Repr, DecidableEq

/-- The pull command line built by `pull_once`. -/
def pullCmd (s : Settings) (repoPath : String) : List String :=
  ["git", "-C", repoPath, "pull", "--ff-only", get_repository_remote_name s]

/-- Success message of `pull_once` when git reported everything up to date. -/
def pullMsgNoChanges : String :=
  "No changes were pulled.\n\nThe KiCad libraries are already up to date."

/-- Success message of `pull_once` when git pulled changes. -/
def pullMsgUpdated : String :=
  "Library successfully updated from remote.\n\nChanges will take effect after restarting KiCad."

/-- Failure message of `pull_once` on `TimeoutExpired`. -/
def pullMsgTimeout : String :=
  "Timed out while running git pull.\n\nThis usually means the remote is unreachable or Git is waiting for credentials.\nPlease verify your network and stored credentials, then try again."

/-- The `detail` part of the nonzero-exit failure message of `pull_once`:
Python `stderr + "\n\n" + stdout` when both are non-empty, else
`stderr or stdout or "Unknown git error."`. -/
def pullDetail (stderr stdout : String) : String :=
  if !stderr.isEmpty && !stdout.isEmpty then stderr ++ "\n\n" ++ stdout
  else if !stderr.isEmpty then stderr
  else if !stdout.isEmpty then stdout
  else "Unknown git error."

/-- Embeds `pull_once`: settings resolution, then classification of the
subprocess result, following the branch structure of the source. -/
def pull_once (s : Settings) (proc : PullProc) : Bool × String :=
  if !s.loadOk then (false, "KiCadPartsSyncer settings.json not found") else
  match s.localPathOpt with
  | none => (false, "Missing repository.localPath in settings.json")
  | some p =>
    if p.isEmpty then (false, "repository.localPath must be a non-empty string.")
    else
      match proc with
      | .timeoutExpired => (false, pullMsgTimeout)
      | .fileNotFound =>
        (false, "Git executable not found. Please install Git and try again.")
      | .otherError e =>
        (false, "Unexpected error while running git pull: " ++ e)
      | .completed returncode out err =>
        let stdout := strStrip out
        let stderr := strStrip err
        if returncode = 0 then
          let combined := strLower (stdout ++ "\n" ++ stderr)
          if strContains combined "already up to date"
              || strContains combined "already up-to-date" then
            (true, pullMsgNoChanges)
          else
            (true, pullMsgUpdated)
        else
          (false,
            "Failed to pull from remote.\n\nCommand: "
              ++ String.intercalate " " (pullCmd s p)
              ++ "\n\n" ++ pullDetail stderr stdout)

/-! ## Presence detector (`infrastructure/ipc/endpoint_detector.py`)

The private loop state of `EndpointDetector._run`: `_is_up` (last emitted
state), `_want_state` (armed candidate) and `_confirm_count`. -/

structure DetState where
  isUp : Bool
  wantState : Option Bool
  confirmCount : Nat
  deriving Repr, DecidableEq

/-- The events published on a confirmed transition. -/
inductive PresenceEvent where
  | appeared
  | vanished
  deriving Repr, DecidableEq

/-- Detector state at construction: `_is_up = False`, `_want_state = None`,
`_confirm_count = 0`. -/
def detInit : DetState := ⟨false, none, 0⟩

/-- The `_confirm_count` value after one iteration of
`EndpointDetector._run`: reset to 1 when the candidate is new or differs
from the armed one, incremented when it repeats. -/
def detConfirm (st : DetState) (upNow : Bool) : Nat :=
  if st.wantState = some upNow then st.confirmCount + 1 else 1

/-- Embeds one iteration of `EndpointDetector._run` on a raw sample
`upNow`: arm/extend the confirmation counter, then emit a transition event
only when the counter has reached 2 and the candidate differs from the last
emitted state. -/
def detStep (st : DetState) (upNow : Bool) : DetState × Option PresenceEvent :=
  if 2 ≤ detConfirm st upNow ∧ st.isUp ≠ upNow then
    (⟨upNow, some upNow, detConfirm st upNow⟩,
     some (if upNow then .appeared else .vanished))
  else
    (⟨st.isUp, some upNow, detConfirm st upNow⟩, none)

/-- Runs the detector loop over a list of raw samples, returning the final
state and, per tick, the event emitted at that tick (if any). -/
def detRun (st : DetState) : List Bool → DetState × List (Option PresenceEvent)
  | [] => (st, [])
  | s :: rest =>
    let p := detStep st s
    let q := detRun p.1 rest
    (q.1, p.2 :: q.2)

/-! ## Orchestrator event handlers (`app/orchestrator.py`)

`ConnState` is the `{connected, frozen}` pair owned by the orchestrator; the
side effects each handler performs (display calls, poller lifecycle calls)
are returned as an explicit list. -/

structure ConnState where
  connected : Bool
  frozen : Bool
  deriving Repr, DecidableEq

/-- Side effects issued by the orchestrator handlers.
`enterActiveMonitoring` and `enterDormant` are the calls to the
correspondingly named methods (which show respectively hide the overlay). -/
inductive Effect where
  | setRepoStatus (status : String)
  | showFrozen (flag : Bool)
  | enterActiveMonitoring
  | enterDormant
  | showOverlay
  | startPoller
  | stopPoller
  deriving Repr, DecidableEq

/-- Orchestrator state at construction: `_connected = False`,
`_frozen = False`. -/
def connInit : ConnState := ⟨false, false⟩

/-- Embeds `Orchestrator._on_repo_status`: while frozen, return without
touching the display; otherwise forward the status to the overlay. -/
def onRepoStatus (st : ConnState) (status : String) : ConnState × List Effect :=
  if st.frozen then (st, []) else (st, [.setRepoStatus status])

/-- Embeds `Orchestrator.on_endpoint_appeared`: when not frozen, enter
active monitoring and start the repo poller; when frozen, only log. -/
def onEndpointAppeared (st : ConnState) : ConnState × List Effect :=
  if !st.frozen then (st, [.enterActiveMonitoring, .startPoller]) else (st, [])

/-- Embeds `Orchestrator.on_endpoint_vanished`: stop the poller and enter
dormant, unconditionally. -/
def onEndpointVanished (st : ConnState) : ConnState × List Effect :=
  (st, [.stopPoller, .enterDormant])

/-- Embeds `Orchestrator.on_connected`: set `_connected = True`; show the
overlay unless frozen. -/
def onConnected (st : ConnState) : ConnState × List Effect :=
  let st1 : ConnState := ⟨true, st.frozen⟩
  if !st1.frozen then (st1, [.showOverlay]) else (st1, [])

/-- Embeds `Orchestrator.on_disconnected`: set `_connected = False` and
enter dormant, unconditionally. -/
def onDisconnected (st : ConnState) : ConnState × List Effect :=
  (⟨false, st.frozen⟩, [.enterDormant])

/-- Embeds `Orchestrator.on_freeze_toggled`: set the frozen flag, show the
frozen indicator, and on unfreeze re-derive the state from the last known
connected flag.  The poller is never started or stopped here. -/
def onFreezeToggled (st : ConnState) (isFrozen : Bool) : ConnState × List Effect :=
  let st1 : ConnState := ⟨st.connected, isFrozen⟩
  if isFrozen then (st1, [.showFrozen isFrozen])
  else if st1.connected then (st1, [.showFrozen isFrozen, .enterActiveMonitoring])
  else (st1, [.showFrozen isFrozen, .enterDormant])

/-! ## Single-flight git job pipeline (`app/orchestrator.py`)

`_start_git_op` / `_run_git_worker` / `_show_git_result` are modelled as a
small transition system.  The state holds the two `_op_in_progress` flags,
the set of live worker threads (each carrying the outcome its job function
will produce and whether its `sig_show.emit` hand-off will succeed), the
queued-dispatch queue feeding the control thread, and the history of
terminal callbacks processed on the control thread. -/

inductive JobKind where
  | pull
  | push
  deriving Repr, DecidableEq

/-- The python name of a job kind, as used in log channels and messages. -/
def kindName : JobKind → String
  | .pull => "pull"
  | .push => "push"

/-- Outcome of running the job function inside the worker: a normal return
of `(success, message)`, or a raised exception. -/
inductive JobOutcome where
  | ret (success : Bool) (message : String)
  | exn (err : String)
  deriving Repr, DecidableEq

/-- Embeds the result computation of `Orchestrator._run_git_worker`: a
normal return is forwarded; an exception becomes `success = False` with the
diagnostic message of the source. -/
def run_git_worker (k : JobKind) (outcome : JobOutcome) : Bool × String :=
  match outcome with
  | .ret success message => (success, message)
  | .exn e => (false, "Unexpected error in repo_" ++ kindName k ++ ": " ++ e)

/-- A live worker thread: its job kind, the outcome its job function will
produce, and whether its terminal `sig_show.emit` hand-off will succeed. -/
structure Worker where
  kind : JobKind
  outcome : JobOutcome
  dispatchOk : Bool
  deriving Repr, DecidableEq

/-- A terminal callback `(kind, success, message)` queued to, or processed
by, the control thread. -/
structure Callback where
  kind : JobKind
  success : Bool
  message : String
  deriving Repr, DecidableEq

structure JobSystem where
  pullBusy : Bool
  pushBusy : Bool
  workers : List Worker
  queue : List Callback
  delivered : List Callback
  deriving Repr, DecidableEq

/-- Job pipeline state at orchestrator construction: both `_op_in_progress`
flags false, no workers, nothing queued or delivered. -/
def jobInit : JobSystem := ⟨false, false, [], [], []⟩

/-- The `_op_in_progress` flag for a kind. -/
def getBusy (st : JobSystem) : JobKind → Bool
  | .pull => st.pullBusy
  | .push => st.pushBusy

/-- Writes the `_op_in_progress` flag for a kind. -/
def setBusy (st : JobSystem) (k : JobKind) (b : Bool) : JobSystem :=
  match k with
  | .pull => { st with pullBusy := b }
  | .push => { st with pushBusy := b }

/-- Interleaving actions of the job pipeline: a submit call on the control
thread (`_start_git_op`), the completion of the i-th live worker
(`_run_git_worker` reaching its emit), and the control thread processing the
head of the dispatch queue (`_show_git_result`). -/
inductive JobAct where
  | submit (k : JobKind) (outcome : JobOutcome) (dispatchOk : Bool)
  | finishWorker (i : Nat)
  | deliver
  deriving Repr, DecidableEq

/-- One transition of the job pipeline.

* `submit`: `_start_git_op` — dropped while the flag is set; otherwise the
  flag is set and exactly one worker is spawned.
* `finishWorker i`: worker `i` computes its `(success, message)` via
  `run_git_worker` and emits it to the dispatch queue; if the emit itself
  fails, the worker clears the flag locally as a last resort (the
  `except` block around `sig_show.emit` in the source).
* `deliver`: `_show_git_result` on the control thread — records the
  callback and clears the flag in its `finally` block. -/
def jobStep (st : JobSystem) (a : JobAct) : JobSystem :=
  match a with
  | .submit k outcome dispatchOk =>
    if getBusy st k then st
    else
      let st1 := setBusy st k true
      { st1 with workers := st1.workers ++ [⟨k, outcome, dispatchOk⟩] }
  | .finishWorker i =>
    match st.workers[i]? with
    | none => st
    | some w =>
      let ws := st.workers.eraseIdx i
      let r := run_git_worker w.kind w.outcome
      if w.dispatchOk then
        { st with workers := ws, queue := st.queue ++ [⟨w.kind, r.1, r.2⟩] }
      else
        let st1 := setBusy st w.kind false
        { st1 with workers := ws }
  | .deliver =>
    match st.queue with
    | [] => st
    | c :: rest =>
      let st1 := setBusy st c.kind false
      { st1 with queue := rest, delivered := st.delivered ++ [c] }

/-- Runs the job pipeline from the initial state over a list of actions. -/
def jobRun (acts : List JobAct) : JobSystem :=
  acts.foldl jobStep jobInit

/-- Number of in-flight jobs of a kind: live workers plus queued terminal
callbacks not yet processed by the control thread. -/
def pendingCount (st : JobSystem) (k : JobKind) : Nat :=
  st.workers.countP (fun w => w.kind == k) + st.queue.countP (fun c => c.kind == k)

/-! ## C1 — poller reporting versus checker classification -/

/-- C1 counterexample: when the checker classifies the repository as
`ahead` (respectively `behind`), exits 0 and prints its status line, the
poller interprets the output as `"diverged"`, not `"ahead"` (respectively
not `"behind"`). -/
theorem poller_reports_ahead_as_diverged :
    checkOnce (.completed 0
      "[Git] KiCadPartsLibrary local repo is AHEAD of origin/main by 3 commit(s). You may want to push.\nstatus: ahead" "")
      = "diverged"
    ∧ checkOnce (.completed 0
        "[Git] KiCadPartsLibrary local repo is BEHIND origin/main by 2 commit(s). You may want to pull.\nstatus: behind" "")
      = "diverged"
    ∧ ("diverged" : String) ≠ "ahead"
    ∧ ("diverged" : String) ≠ "behind" := by
  exact ⟨by decide, by decide, by decide, by decide⟩

/-- C1 (amended): each polling iteration reports the checker classification
normalized to the three-valued status set of `_check_once`: any exception
or nonzero exit maps to `"unknown"`, `clean` maps to `"clean"`, and
`ahead`, `behind`, `diverged` (detached HEAD included) all map to
`"diverged"`; the reported sequence is an initial `"unknown"` followed by
one such status per iteration. -/
theorem poller_normalizes_checker_status :
    (∀ proc, checkOnce proc = "unknown" ∨ checkOnce proc = "clean"
      ∨ checkOnce proc = "diverged")
    ∧ checkOnce .exn = "unknown"
    ∧ (∀ (rc : Int) (out err : String), rc ≠ 0 →
        checkOnce (.completed rc out err) = "unknown")
    ∧ checkOnce (.completed 0 "status: clean" "") = "clean"
    ∧ checkOnce (.completed 0 "status: ahead" "") = "diverged"
    ∧ checkOnce (.completed 0 "status: behind" "") = "diverged"
    ∧ checkOnce (.completed 0 "status: diverged" "") = "diverged"
    ∧ checkOnce (.completed 0 "[Git] repo is in a DETACHED HEAD state; treating as diverged.\nstatus: diverged" "")
        = "diverged"
    ∧ (∀ procs, pollReports procs = "unknown" :: procs.map checkOnce) := by
  refine ⟨?_, rfl, ?_, by decide, by decide, by decide, by decide, by decide,
    fun procs => rfl⟩
  · intro proc
    cases proc with
    | exn => exact Or.inl rfl
    | completed rc out err =>
      simp only [checkOnce]
      repeat' split
      all_goals simp
  · intro rc out err h
    have hb : (rc != 0) = true := by simpa using h
    simp [checkOnce, hb]

/-- Witness for `poller_normalizes_checker_status`: a nonzero checker exit
is reported as `"unknown"`. -/
theorem poller_normalizes_checker_status_witness :
    checkOnce (.completed 1 "" "") = "unknown" :=
  poller_normalizes_checker_status.2.2.1 1 "" "" (by decide)

/-! ## C5 — ahead/behind classification -/

/-- C5: on a non-detached repository where the fetch succeeds and the
ahead/behind counts are computed, `check_remote_status` classifies `(0,0)`
as clean, `(a>0, 0)` as ahead, `(0, b>0)` as behind and `(a>0, b>0)` as
diverged; in particular `(0,0)`, `(3,0)`, `(0,2)`, `(4,1)` classify as
clean, ahead, behind, diverged. -/
theorem checker_ahead_behind_classification (cfg : Settings) (repo : RepoModel)
    (hload : cfg.loadOk = true) (hname : cfg.repoNameOpt.isNone = false)
    (htok : cfg.tokenAvailable = true) (hdir : cfg.pathIsDir = true)
    (hopen : repo.openOk = true) (hbare : repo.bare = false)
    (hrem : repo.remotes.contains "origin" = true)
    (hdet : repo.detached = false) (hfetch : repo.fetchOk = true)
    (href : repo.remoteRefExists = true) :
    check_remote_status cfg repo
      = (.ok (classifyAheadBehind repo.ahead repo.behind), true)
    ∧ (repo.ahead = 0 → repo.behind = 0 →
        classifyAheadBehind repo.ahead repo.behind = "clean")
    ∧ (0 < repo.ahead → repo.behind = 0 →
        classifyAheadBehind repo.ahead repo.behind = "ahead")
    ∧ (repo.ahead = 0 → 0 < repo.behind →
        classifyAheadBehind repo.ahead repo.behind = "behind")
    ∧ (0 < repo.ahead → 0 < repo.behind →
        classifyAheadBehind repo.ahead repo.behind = "diverged")
    ∧ classifyAheadBehind 0 0 = "clean"
    ∧ classifyAheadBehind 3 0 = "ahead"
    ∧ classifyAheadBehind 0 2 = "behind"
    ∧ classifyAheadBehind 4 1 = "diverged" := by
  have hmem : "origin" ∈ repo.remotes := by simpa using hrem
  refine ⟨?_, ?_, ?_, ?_, ?_, by decide, by decide, by decide, by decide⟩
  · simp [check_remote_status, hload, hname, htok, hdir, hopen, hbare, hmem,
      hdet, hfetch, href]
  · intro ha hb; simp [classifyAheadBehind, ha, hb]
  · intro ha hb; simp [classifyAheadBehind, hb, Nat.pos_iff_ne_zero.mp ha]
  · intro ha hb; simp [classifyAheadBehind, ha, Nat.pos_iff_ne_zero.mp hb]
  · intro ha hb
    simp [classifyAheadBehind, Nat.pos_iff_ne_zero.mp ha, Nat.pos_iff_ne_zero.mp hb]

/-- Witness for `checker_ahead_behind_classification` at a concrete
configured repository that is 3 commits ahead. -/
theorem checker_ahead_behind_classification_witness :
    check_remote_status
        ⟨true, some "KiCadPartsLibrary", some "C:/dev/lib", none, none, true, true⟩
        ⟨true, false, ["origin"], false, "main", true, true, 3, 0⟩
      = (.ok (classifyAheadBehind 3 0), true)
    ∧ classifyAheadBehind 3 0 = "ahead" := by
  have h := checker_ahead_behind_classification
    ⟨true, some "KiCadPartsLibrary", some "C:/dev/lib", none, none, true, true⟩
    ⟨true, false, ["origin"], false, "main", true, true, 3, 0⟩
    rfl rfl rfl rfl rfl rfl (by decide) rfl rfl rfl
  exact ⟨h.1, h.2.2.1 (by decide) rfl⟩

/-! ## C7 — detached HEAD short-circuits to diverged -/

/-- C7: on a detached repository (all earlier guards passing),
`check_remote_status` classifies `diverged` immediately; the second
component `false` records that the `remote.fetch` call is never reached,
and the result is the same for every ahead/behind count. -/
theorem checker_detached_is_diverged (cfg : Settings) (repo : RepoModel)
    (hload : cfg.loadOk = true) (hname : cfg.repoNameOpt.isNone = false)
    (htok : cfg.tokenAvailable = true) (hdir : cfg.pathIsDir = true)
    (hopen : repo.openOk = true) (hbare : repo.bare = false)
    (hrem : repo.remotes.contains "origin" = true)
    (hdet : repo.detached = true) :
    check_remote_status cfg repo = (.ok "diverged", false)
    ∧ (∀ a b : Nat,
        check_remote_status cfg { repo with ahead := a, behind := b }
          = (.ok "diverged", false)) := by
  have hmem : "origin" ∈ repo.remotes := by simpa using hrem
  constructor
  · simp [check_remote_status, hload, hname, htok, hdir, hopen, hbare, hmem, hdet]
  · intro a b
    simp [check_remote_status, hload, hname, htok, hdir, hopen, hbare, hmem, hdet]

/-- Witness for `checker_detached_is_diverged` at a concrete detached
repository that is both ahead and behind. -/
theorem checker_detached_is_diverged_witness :
    check_remote_status
        ⟨true, some "KiCadPartsLibrary", some "C:/dev/lib", none, none, true, true⟩
        ⟨true, false, ["origin"], true, "main", true, true, 4, 1⟩
      = (.ok "diverged", false) :=
  (checker_detached_is_diverged
    ⟨true, some "KiCadPartsLibrary", some "C:/dev/lib", none, none, true, true⟩
    ⟨true, false, ["origin"], true, "main", true, true, 4, 1⟩
    rfl rfl rfl rfl rfl rfl (by decide) rfl).1

/-! ## C8 — remote resolution -/

/-- C8 counterexample: with `repository.remoteName = "upstream"` configured
and a repository whose only remote is `upstream`, the configured remote
name resolves to `"upstream"`, yet `check_remote_status` fails with its
missing-`origin` error — the checker uses the fixed name `origin`, not the
configured one. -/
theorem checker_ignores_configured_remote :
    get_repository_remote_name
        ⟨true, some "KiCadPartsLibrary", some "C:/dev/lib", some "upstream", none, true, true⟩
      = "upstream"
    ∧ check_remote_status
        ⟨true, some "KiCadPartsLibrary", some "C:/dev/lib", some "upstream", none, true, true⟩
        ⟨true, false, ["upstream"], false, "main", true, true, 0, 0⟩
      = (.error "Remote origin not found in repository.", false) := by
  exact ⟨by decide, rfl⟩

/-- C8 (amended): `check_remote_status` fixes the remote name to `origin`
regardless of configuration — its result does not depend on the configured
remote-name keys, and it errors whenever the repository has no remote
named `origin`; `get_repository_remote_name` defaults to `origin` only
when neither key is configured, and the pull command (not the checker) is
what uses the configured name. -/
theorem checker_remote_is_always_origin :
    (∀ (cfg : Settings) (repo : RepoModel) (r l : Option String),
      check_remote_status { cfg with remoteNameOpt := r, remoteLegacyOpt := l } repo
        = check_remote_status cfg repo)
    ∧ (∀ (cfg : Settings) (repo : RepoModel),
        cfg.loadOk = true → cfg.repoNameOpt.isNone = false →
        cfg.tokenAvailable = true → cfg.pathIsDir = true →
        repo.openOk = true → repo.bare = false →
        repo.remotes.contains "origin" = false →
        check_remote_status cfg repo
          = (.error "Remote origin not found in repository.", false))
    ∧ (∀ s : Settings, s.remoteNameOpt = none → s.remoteLegacyOpt = none →
        get_repository_remote_name s = "origin")
    ∧ (∀ (s : Settings) (p : String),
        (pullCmd s p).getLast? = some (get_repository_remote_name s)) := by
  refine ⟨fun cfg repo r l => rfl, ?_, ?_, fun s p => rfl⟩
  · intro cfg repo hload hname htok hdir hopen hbare hrem
    have hnot : "origin" ∉ repo.remotes := by simpa using hrem
    simp [check_remote_status, hload, hname, htok, hdir, hopen, hbare, hnot]
  · intro s h1 h2
    simp [get_repository_remote_name, h1, h2]

/-- Witness for `checker_remote_is_always_origin`: a repository with only
an `upstream` remote makes the checker fail, and an unconfigured remote
name defaults to `origin`. -/
theorem checker_remote_is_always_origin_witness :
    check_remote_status
        ⟨true, some "KiCadPartsLibrary", some "C:/dev/lib", none, none, true, true⟩
        ⟨true, false, ["upstream"], false, "main", true, true, 0, 0⟩
      = (.error "Remote origin not found in repository.", false)
    ∧ get_repository_remote_name
        ⟨true, some "KiCadPartsLibrary", some "C:/dev/lib", none, none, true, true⟩
      = "origin" :=
  ⟨checker_remote_is_always_origin.2.1
      ⟨true, some "KiCadPartsLibrary", some "C:/dev/lib", none, none, true, true⟩
      ⟨true, false, ["upstream"], false, "main", true, true, 0, 0⟩
      rfl rfl rfl rfl rfl rfl (by decide),
   checker_remote_is_always_origin.2.2.1
      ⟨true, some "KiCadPartsLibrary", some "C:/dev/lib", none, none, true, true⟩
      rfl rfl⟩

/-! ## C9 — pull outcome classification -/

/-- Strings with distinct first characters are distinct. -/
theorem string_ne_of_head {a b : String} {c d : Char}
    (ha : a.data.head? = some c) (hb : b.data.head? = some d) (hcd : c ≠ d) :
    a ≠ b := by
  intro h
  rw [h, hb] at ha
  exact hcd (Option.some.inj ha).symm

/-- C9: `pull_once` classifies its outcome — exit 0 with an
already-up-to-date marker in the combined output gives success with the
no-changes message, exit 0 otherwise gives success with the updated
message, nonzero exit gives failure with a message built from the combined
stderr/stdout, and a timeout at the 30-second bound gives failure with the
explicit timed-out message, which differs from every nonzero-exit failure
message. -/
theorem pull_once_classification (s : Settings) (p : String)
    (hload : s.loadOk = true) (hpath : s.localPathOpt = some p)
    (hne : p.isEmpty = false) :
    (∀ out err : String,
      pull_once s (.completed 0 out err) =
        (if strContains (strLower (strStrip out ++ "\n" ++ strStrip err))
              "already up to date"
            || strContains (strLower (strStrip out ++ "\n" ++ strStrip err))
              "already up-to-date"
         then (true, pullMsgNoChanges) else (true, pullMsgUpdated)))
    ∧ (∀ (rc : Int) (out err : String), rc ≠ 0 →
        pull_once s (.completed rc out err) =
          (false, "Failed to pull from remote.\n\nCommand: "
            ++ String.intercalate " " (pullCmd s p)
            ++ "\n\n" ++ pullDetail (strStrip err) (strStrip out)))
    ∧ pull_once s .timeoutExpired = (false, pullMsgTimeout)
    ∧ (∀ (rc : Int) (out err : String), rc ≠ 0 →
        (pull_once s (.completed rc out err)).2 ≠ pullMsgTimeout)
    ∧ GIT_PULL_TIMEOUT_SECONDS = 30 := by
  refine ⟨?_, ?_, ?_, ?_, rfl⟩
  · intro out err
    simp [pull_once, hload, hpath, hne]
  · intro rc out err h
    simp [pull_once, hload, hpath, hne, h]
  · simp [pull_once, hload, hpath, hne]
  · intro rc out err h
    have h2 : pull_once s (.completed rc out err) =
        (false, "Failed to pull from remote.\n\nCommand: "
          ++ String.intercalate " " (pullCmd s p)
          ++ "\n\n" ++ pullDetail (strStrip err) (strStrip out)) := by
      simp [pull_once, hload, hpath, hne, h]
    rw [h2]
    refine string_ne_of_head (c := 'F') (d := 'T') ?_ (by rfl) (by decide)
    rw [String.append_assoc, String.append_assoc, String.data_append]
    rfl

/-- Witness for `pull_once_classification` at concrete settings and
outputs: an up-to-date pull, a failing pull, and a timed-out pull. -/
theorem pull_once_classification_witness :
    pull_once ⟨true, some "KiCadPartsLibrary", some "C:/dev/lib", none, none, true, true⟩
        (.completed 0 "Already up to date." "")
      = (if strContains (strLower (strStrip "Already up to date." ++ "\n" ++ strStrip ""))
              "already up to date"
            || strContains (strLower (strStrip "Already up to date." ++ "\n" ++ strStrip ""))
              "already up-to-date"
         then (true, pullMsgNoChanges) else (true, pullMsgUpdated))
    ∧ pull_once ⟨true, some "KiCadPartsLibrary", some "C:/dev/lib", none, none, true, true⟩
        .timeoutExpired = (false, pullMsgTimeout)
    ∧ (pull_once ⟨true, some "KiCadPartsLibrary", some "C:/dev/lib", none, none, true, true⟩
        (.completed 1 "" "fatal: not a git repository")).2 ≠ pullMsgTimeout :=
  ⟨(pull_once_classification
      ⟨true, some "KiCadPartsLibrary", some "C:/dev/lib", none, none, true, true⟩
      "C:/dev/lib" rfl rfl (by decide)).1 "Already up to date." "",
   (pull_once_classification
      ⟨true, some "KiCadPartsLibrary", some "C:/dev/lib", none, none, true, true⟩
      "C:/dev/lib" rfl rfl (by decide)).2.2.1,
   (pull_once_classification
      ⟨true, some "KiCadPartsLibrary", some "C:/dev/lib", none, none, true, true⟩
      "C:/dev/lib" rfl rfl (by decide)).2.2.2.1 1 "" "fatal: not a git repository"
      (by decide)⟩

/-! ## C6 — freeze semantics -/

/-- C6: while frozen, a sync-status callback leaves the state unchanged and
issues no display update, and an endpoint-appeared event neither enters
active monitoring nor starts the poller; unfreezing re-derives the state
from the last known connected flag (active monitoring if connected, else
dormant), and no freeze toggle ever starts or stops the poller. -/
theorem freeze_suppression_and_rederive (st : ConnState) (status : String) :
    (st.frozen = true → onRepoStatus st status = (st, []))
    ∧ (st.frozen = true → onEndpointAppeared st = (st, []))
    ∧ onFreezeToggled st false =
        (⟨st.connected, false⟩,
          .showFrozen false ::
            (if st.connected then [.enterActiveMonitoring] else [.enterDormant]))
    ∧ (∀ f : Bool, Effect.startPoller ∉ (onFreezeToggled st f).2
        ∧ Effect.stopPoller ∉ (onFreezeToggled st f).2) := by
  refine ⟨?_, ?_, ?_, ?_⟩
  · intro h; simp [onRepoStatus, h]
  · intro h; simp [onEndpointAppeared, h]
  · by_cases hc : st.connected <;> simp [onFreezeToggled, hc]
  · intro f
    by_cases hc : st.connected <;> cases f <;>
      simp [onFreezeToggled, hc]

/-- Witness for `freeze_suppression_and_rederive` at a frozen, connected
state. -/
theorem freeze_suppression_and_rederive_witness :
    onRepoStatus ⟨true, true⟩ "clean" = (⟨true, true⟩, [])
    ∧ onEndpointAppeared ⟨true, true⟩ = (⟨true, true⟩, [])
    ∧ onFreezeToggled ⟨true, true⟩ false =
        (⟨true, false⟩,
          .showFrozen false ::
            (if (true : Bool) then [.enterActiveMonitoring] else [.enterDormant])) :=
  ⟨(freeze_suppression_and_rederive ⟨true, true⟩ "clean").1 rfl,
   (freeze_suppression_and_rederive ⟨true, true⟩ "clean").2.1 rfl,
   (freeze_suppression_and_rederive ⟨true, true⟩ "clean").2.2.1⟩

/-! ## C10 — connected flag tracks events even while frozen -/

/-- C10: `on_connected` sets the connected flag and `on_disconnected`
clears it regardless of the frozen flag; freezing suppresses only the
display call of `on_connected`; and unfreeze re-derivation branches on
exactly the stored connected flag. -/
theorem connected_flag_tracks_events (st : ConnState) :
    ((onConnected st).1).connected = true
    ∧ ((onDisconnected st).1).connected = false
    ∧ ((onConnected st).1).frozen = st.frozen
    ∧ ((onDisconnected st).1).frozen = st.frozen
    ∧ (st.frozen = true → (onConnected st).2 = [])
    ∧ (st.frozen = false → (onConnected st).2 = [.showOverlay])
    ∧ (onFreezeToggled st false).2 =
        .showFrozen false ::
          (if st.connected then [.enterActiveMonitoring] else [.enterDormant]) := by
  refine ⟨?_, rfl, ?_, rfl, ?_, ?_, ?_⟩
  · by_cases h : st.frozen <;> simp [onConnected, h]
  · by_cases h : st.frozen <;> simp [onConnected, h]
  · intro h; simp [onConnected, h]
  · intro h; simp [onConnected, h]
  · by_cases hc : st.connected <;> simp [onFreezeToggled, hc]

/-- Witness for `connected_flag_tracks_events` at a frozen and at an
unfrozen state. -/
theorem connected_flag_tracks_events_witness :
    ((onConnected ⟨false, true⟩).1).connected = true
    ∧ (onConnected ⟨false, true⟩).2 = []
    ∧ (onConnected ⟨false, false⟩).2 = [.showOverlay]
    ∧ ((onDisconnected ⟨true, true⟩).1).connected = false :=
  ⟨(connected_flag_tracks_events ⟨false, true⟩).1,
   (connected_flag_tracks_events ⟨false, true⟩).2.2.2.2.1 rfl,
   (connected_flag_tracks_events ⟨false, false⟩).2.2.2.2.2.1 rfl,
   (connected_flag_tracks_events ⟨true, true⟩).2.1⟩

/-! ## C4 — presence debounce -/

/-- After any detector iteration the armed candidate is the sample just
read. -/
theorem detStep_wantState (st : DetState) (s : Bool) :
    ((detStep st s).1).wantState = some s := by
  by_cases hc : 2 ≤ detConfirm st s ∧ st.isUp ≠ s <;> simp [detStep, hc]

/-- An event is emitted only when the armed candidate already equals the
sample (a second consecutive identical reading) and the sample differs
from the last emitted state; the emitted event matches the direction. -/
theorem detStep_emit (st : DetState) (s : Bool) (e : PresenceEvent)
    (h : (detStep st s).2 = some e) :
    st.wantState = some s ∧ st.isUp ≠ s
      ∧ e = (if s then PresenceEvent.appeared else PresenceEvent.vanished) := by
  by_cases hc : 2 ≤ detConfirm st s ∧ st.isUp ≠ s
  · by_cases hw : st.wantState = some s
    · unfold detStep at h
      rw [if_pos hc] at h
      exact ⟨hw, hc.2, (Option.some.inj h).symm⟩
    · exfalso
      have h1 := hc.1
      rw [detConfirm, if_neg hw] at h1
      omega
  · simp [detStep, hc] at h

/-- A tick that emits no event leaves the last emitted state unchanged. -/
theorem detStep_none_isUp (st : DetState) (s : Bool)
    (h : (detStep st s).2 = none) : ((detStep st s).1).isUp = st.isUp := by
  by_cases hc : 2 ≤ detConfirm st s ∧ st.isUp ≠ s
  · simp [detStep, hc] at h
  · simp [detStep, hc]

/-- A sample equal to the last emitted state never emits and keeps that
state. -/
theorem detStep_same_isUp (st : DetState) (s : Bool) (h : st.isUp = s) :
    (detStep st s).2 = none ∧ ((detStep st s).1).isUp = s := by
  have hc : ¬ (2 ≤ detConfirm st s ∧ st.isUp ≠ s) := by simp [h]
  simp [detStep, hc, h]

/-- After a confirmed transition to `s`, any run of further samples all
equal to `s` emits no events at all. -/
theorem detRun_stable (s : Bool) :
    ∀ (n : Nat) (st : DetState), st.isUp = s →
      ((detRun st (List.replicate n s)).2).countP (fun o => o.isSome) = 0
  | 0, st, _ => by simp [detRun]
  | n + 1, st, h => by
    have h1 := detStep_same_isUp st s h
    have ih := detRun_stable s n (detStep st s).1 h1.2
    simp [List.replicate_succ, detRun, h1.1, List.countP_cons, ih]

/-- The detector emits one (optional) event per sample. -/
theorem detRun_length :
    ∀ (samples : List Bool) (st : DetState),
      ((detRun st samples).2).length = samples.length
  | [], _ => by simp [detRun]
  | s :: rest, st => by
    simp [detRun, detRun_length rest (detStep st s).1]

/-- Trace lemma: an event at tick `i` requires either that the initial
armed candidate already equals the first sample (impossible from the
initial state) or that samples `i - 1` and `i` coincide. -/
theorem detRun_event_needs_confirm :
    ∀ (samples : List Bool) (st : DetState) (i : Nat) (e : PresenceEvent),
      ((detRun st samples).2)[i]? = some (some e) →
      (i = 0 ∧ st.wantState = samples[0]?) ∨
      (1 ≤ i ∧ samples[i - 1]? = samples[i]?)
  | [], st, i, e, h => by simp [detRun] at h
  | s :: rest, st, 0, e, h => by
    simp only [detRun, List.getElem?_cons_zero] at h
    have he := detStep_emit st s e (Option.some.inj h)
    exact Or.inl ⟨rfl, by simp [he.1]⟩
  | s :: rest, st, i + 1, e, h => by
    simp only [detRun, List.getElem?_cons_succ] at h
    rcases detRun_event_needs_confirm rest (detStep st s).1 i e h with
      ⟨hi, hw⟩ | ⟨hi, hcons⟩
    · subst hi
      refine Or.inr ⟨by omega, ?_⟩
      have hwant := detStep_wantState st s
      rw [hwant] at hw
      simp [← hw]
    · obtain ⟨j, rfl⟩ : ∃ j, i = j + 1 := ⟨i - 1, by omega⟩
      refine Or.inr ⟨by omega, ?_⟩
      simpa using hcons

/-- C4: from the initial detector state, no event is emitted on the very
first differing sample (an event at tick `i` forces `1 ≤ i` and equal
samples at `i - 1` and `i`); step-wise, an event requires an armed
candidate equal to the sample and differing from the last emitted state;
non-emitting ticks preserve the last emitted state; and after an emission
the state has flipped, so further identical samples emit nothing — at most
one event per stable transition, and none at startup. -/
theorem detector_two_sample_debounce :
    (∀ s : Bool, (detStep detInit s).2 = none)
    ∧ (∀ (samples : List Bool) (i : Nat) (e : PresenceEvent),
        ((detRun detInit samples).2)[i]? = some (some e) →
        1 ≤ i ∧ samples[i - 1]? = samples[i]?)
    ∧ (∀ (st : DetState) (s : Bool) (e : PresenceEvent),
        (detStep st s).2 = some e →
        st.wantState = some s ∧ st.isUp ≠ s
          ∧ e = (if s then PresenceEvent.appeared else PresenceEvent.vanished))
    ∧ (∀ (st : DetState) (s : Bool),
        (detStep st s).2 = none → ((detStep st s).1).isUp = st.isUp)
    ∧ (∀ (st : DetState) (s : Bool) (e : PresenceEvent),
        (detStep st s).2 = some e →
        ((detStep st s).1).isUp = s
        ∧ ∀ n : Nat,
            ((detRun (detStep st s).1 (List.replicate n s)).2).countP
              (fun o => o.isSome) = 0) := by
  refine ⟨?_, ?_, detStep_emit, detStep_none_isUp, ?_⟩
  · intro s; cases s <;> decide
  · intro samples i e h
    rcases detRun_event_needs_confirm samples detInit i e h with ⟨hi, hw⟩ | hok
    · exfalso
      subst hi
      have hlt : 0 < samples.length := by
        by_contra hle
        push_neg at hle
        have hnone : ((detRun detInit samples).2)[0]? = none :=
          List.getElem?_eq_none (by rw [detRun_length]; omega)
        rw [hnone] at h
        exact Option.noConfusion h
      rw [List.getElem?_eq_getElem hlt] at hw
      exact Option.noConfusion hw
    · exact hok
  · intro st s e h
    have hup : ((detStep st s).1).isUp = s := by
      by_cases hc : 2 ≤ detConfirm st s ∧ st.isUp ≠ s
      · simp [detStep, hc]
      · simp [detStep, hc] at h
    exact ⟨hup, fun n => detRun_stable s n (detStep st s).1 hup⟩

/-- Witness for `detector_two_sample_debounce`: two consecutive `true`
samples from the initial state emit `appeared` at the second tick, and the
instantiated debounce facts hold there. -/
theorem detector_two_sample_debounce_witness :
    (1 ≤ 1 ∧ ([true, true] : List Bool)[1 - 1]? = [true, true][1]?)
    ∧ ((⟨false, some true, 1⟩ : DetState).wantState = some true
        ∧ (⟨false, some true, 1⟩ : DetState).isUp ≠ true
        ∧ PresenceEvent.appeared
            = (if true then PresenceEvent.appeared else PresenceEvent.vanished))
    ∧ ((detStep ⟨false, none, 0⟩ true).1).isUp = (⟨false, none, 0⟩ : DetState).isUp
    ∧ ((detStep ⟨false, some true, 1⟩ true).1).isUp = true
    ∧ ((detRun (detStep ⟨false, some true, 1⟩ true).1 (List.replicate 2 true)).2).countP
        (fun o => o.isSome) = 0 :=
  ⟨detector_two_sample_debounce.2.1 [true, true] 1 .appeared (by decide),
   detector_two_sample_debounce.2.2.1 ⟨false, some true, 1⟩ true .appeared (by decide),
   detector_two_sample_debounce.2.2.2.1 ⟨false, none, 0⟩ true (by decide),
   (detector_two_sample_debounce.2.2.2.2 ⟨false, some true, 1⟩ true .appeared (by decide)).1,
   (detector_two_sample_debounce.2.2.2.2 ⟨false, some true, 1⟩ true .appeared (by decide)).2 2⟩

/-! ## C2/C3 — single-flight job pipeline -/

/-- Removing the element at a valid index removes its contribution to a
count. -/
theorem countP_eraseIdx {α : Type} (p : α → Bool) :
    ∀ (l : List α) (i : Nat) (w : α), l[i]? = some w →
      (l.eraseIdx i).countP p + (if p w then 1 else 0) = l.countP p
  | [], i, w, h => by simp at h
  | a :: t, 0, w, h => by
    simp only [List.getElem?_cons_zero, Option.some.injEq] at h
    subst h
    simp [List.countP_cons]
  | a :: t, i + 1, w, h => by
    simp only [List.getElem?_cons_succ] at h
    have ih := countP_eraseIdx p t i w h
    by_cases hpa : p a <;>
      simp [List.eraseIdx_cons_succ, List.countP_cons, hpa] <;> omega

/-- `setBusy` touches only the flags. -/
@[simp] theorem setBusy_workers (st : JobSystem) (k : JobKind) (b : Bool) :
    (setBusy st k b).workers = st.workers := by cases k <;> rfl

/-- `setBusy` touches only the flags. -/
@[simp] theorem setBusy_queue (st : JobSystem) (k : JobKind) (b : Bool) :
    (setBusy st k b).queue = st.queue := by cases k <;> rfl

/-- `setBusy` touches only the flags. -/
@[simp] theorem setBusy_delivered (st : JobSystem) (k : JobKind) (b : Bool) :
    (setBusy st k b).delivered = st.delivered := by cases k <;> rfl

/-- Reading a flag after writing one. -/
theorem getBusy_setBusy (st : JobSystem) (k : JobKind) (b : Bool) (k' : JobKind) :
    getBusy (setBusy st k b) k' = if k' = k then b else getBusy st k' := by
  cases k <;> cases k' <;> simp [getBusy, setBusy]

/-- Flags are unaffected by a workers update. -/
theorem getBusy_workers_update (st : JobSystem) (ws : List Worker) (k : JobKind) :
    getBusy { st with workers := ws } k = getBusy st k := by
  cases k <;> rfl

/-- Flags are unaffected by a workers-and-queue update. -/
theorem getBusy_wq_update (st : JobSystem) (ws : List Worker)
    (qu : List Callback) (k : JobKind) :
    getBusy { st with workers := ws, queue := qu } k = getBusy st k := by
  cases k <;> rfl

/-- Flags are unaffected by a queue-and-delivered update. -/
theorem getBusy_qd_update (st : JobSystem) (qu : List Callback)
    (dl : List Callback) (k : JobKind) :
    getBusy { st with queue := qu, delivered := dl } k = getBusy st k := by
  cases k <;> rfl

/-- The single-flight invariant of `_op_in_progress`: per kind, the number
of in-flight jobs is at most one, and zero whenever the flag is clear. -/
def JobInv (st : JobSystem) : Prop :=
  ∀ k : JobKind, pendingCount st k ≤ if getBusy st k then 1 else 0

/-- The initial job pipeline state satisfies the invariant. -/
theorem jobInit_inv : JobInv jobInit := by
  intro k
  cases k <;> simp [pendingCount, jobInit, getBusy]

/-- Every pipeline transition preserves the single-flight invariant. -/
theorem jobInv_step (st : JobSystem) (a : JobAct) (h : JobInv st) :
    JobInv (jobStep st a) := by
  intro k
  cases a with
  | submit k' outcome dispatchOk =>
    by_cases hb : getBusy st k' = true
    · simpa [jobStep, hb] using h k
    · have hb' : getBusy st k' = false := by simpa using hb
      have hz : pendingCount st k' = 0 := by
        have hk' := h k'
        rw [hb'] at hk'
        simpa using hk'
      have e1 : jobStep st (.submit k' outcome dispatchOk)
          = { setBusy st k' true with
                workers := st.workers ++ [⟨k', outcome, dispatchOk⟩] } := by
        simp [jobStep, hb']
      rw [e1]
      have e2 : pendingCount
            { setBusy st k' true with
                workers := st.workers ++ [⟨k', outcome, dispatchOk⟩] } k
          = pendingCount st k + (if k' = k then 1 else 0) := by
        by_cases hkk : k' = k <;>
          simp [pendingCount, List.countP_append, List.countP_cons, hkk] <;>
          omega
      have e3 : getBusy
            { setBusy st k' true with
                workers := st.workers ++ [⟨k', outcome, dispatchOk⟩] } k
          = (if k = k' then true else getBusy st k) := by
        rw [getBusy_workers_update, getBusy_setBusy]
      rw [e2, e3]
      rcases eq_or_ne k k' with rfl | hne
      · simp [hz]
      · rw [if_neg (Ne.symm hne), if_neg hne]
        simpa using h k
  | finishWorker i =>
    cases hw : st.workers[i]? with
    | none => simpa [jobStep, hw] using h k
    | some w =>
      have hcnt := countP_eraseIdx (fun x => x.kind == k) st.workers i w hw
      have hk := h k
      simp only [pendingCount] at hk
      by_cases hd : w.dispatchOk = true
      · have e1 : jobStep st (.finishWorker i)
            = { st with
                  workers := st.workers.eraseIdx i,
                  queue := st.queue
                    ++ [⟨w.kind, (run_git_worker w.kind w.outcome).1,
                        (run_git_worker w.kind w.outcome).2⟩] } := by
          simp [jobStep, hw, hd]
        rw [e1]
        have e2 : pendingCount
              { st with
                  workers := st.workers.eraseIdx i,
                  queue := st.queue
                    ++ [⟨w.kind, (run_git_worker w.kind w.outcome).1,
                        (run_git_worker w.kind w.outcome).2⟩] } k
            = (st.workers.eraseIdx i).countP (fun x => x.kind == k)
              + st.queue.countP (fun c => c.kind == k)
              + (if w.kind = k then 1 else 0) := by
          by_cases hwk : w.kind = k <;>
            simp [pendingCount, List.countP_append, List.countP_cons, hwk] <;>
            omega
        have e3 : getBusy
              { st with
                  workers := st.workers.eraseIdx i,
                  queue := st.queue
                    ++ [⟨w.kind, (run_git_worker w.kind w.outcome).1,
                        (run_git_worker w.kind w.outcome).2⟩] } k
            = getBusy st k := getBusy_wq_update st _ _ k
        rw [e2, e3]
        by_cases hwk : w.kind = k
        · simp [hwk] at hcnt
          rw [if_pos hwk]
          clear e1 e2 e3
          cases hgb : getBusy st k <;> rw [hgb] at hk <;>
            simp only [eq_self_iff_true, Bool.false_eq_true, if_true, if_false] at hk ⊢ <;>
            omega
        · simp [hwk] at hcnt
          rw [if_neg hwk]
          clear e1 e2 e3
          cases hgb : getBusy st k <;> rw [hgb] at hk <;>
            simp only [eq_self_iff_true, Bool.false_eq_true, if_true, if_false] at hk ⊢ <;>
            omega
      · have hd' : w.dispatchOk = false := by simpa using hd
        have e1 : jobStep st (.finishWorker i)
            = { setBusy st w.kind false with
                  workers := st.workers.eraseIdx i } := by
          simp [jobStep, hw, hd']
        rw [e1]
        have e2 : pendingCount
              { setBusy st w.kind false with
                  workers := st.workers.eraseIdx i } k
            = (st.workers.eraseIdx i).countP (fun x => x.kind == k)
              + st.queue.countP (fun c => c.kind == k) := by
          simp [pendingCount]
        have e3 : getBusy
              { setBusy st w.kind false with
                  workers := st.workers.eraseIdx i } k
            = (if k = w.kind then false else getBusy st k) := by
          rw [getBusy_workers_update, getBusy_setBusy]
        rw [e2, e3]
        by_cases hwk : w.kind = k
        · simp [hwk] at hcnt
          rw [if_pos hwk.symm]
          clear e1 e2 e3
          cases hgb : getBusy st k <;> rw [hgb] at hk <;>
            simp only [eq_self_iff_true, Bool.false_eq_true, if_true, if_false] at hk ⊢ <;>
            omega
        · simp [hwk] at hcnt
          rw [if_neg (Ne.symm hwk)]
          clear e1 e2 e3
          cases hgb : getBusy st k <;> rw [hgb] at hk <;>
            simp only [eq_self_iff_true, Bool.false_eq_true, if_true, if_false] at hk ⊢ <;>
            omega
  | deliver =>
    cases hq : st.queue with
    | nil => simpa [jobStep, hq] using h k
    | cons c rest =>
      have hk := h k
      simp only [pendingCount, hq, List.countP_cons] at hk
      have e1 : jobStep st .deliver
          = { setBusy st c.kind false with
                queue := rest,
                delivered := st.delivered ++ [c] } := by
        simp [jobStep, hq]
      rw [e1]
      have e2 : pendingCount
            { setBusy st c.kind false with
                queue := rest,
                delivered := st.delivered ++ [c] } k
          = st.workers.countP (fun x => x.kind == k)
            + rest.countP (fun x => x.kind == k) := by
        simp [pendingCount]
      have e3 : getBusy
            { setBusy st c.kind false with
                queue := rest,
                delivered := st.delivered ++ [c] } k
          = (if k = c.kind then false else getBusy st k) := by
        rw [getBusy_qd_update, getBusy_setBusy]
      rw [e2, e3]
      by_cases hck : c.kind = k
      · simp [hck] at hk
        rw [if_pos hck.symm]
        clear e1 e2 e3
        cases hgb : getBusy st k <;> rw [hgb] at hk <;>
            simp only [eq_self_iff_true, Bool.false_eq_true, if_true, if_false] at hk ⊢ <;>
            omega
      · simp [hck] at hk
        rw [if_neg (Ne.symm hck)]
        clear e1 e2 e3
        cases hgb : getBusy st k <;> rw [hgb] at hk <;>
            simp only [eq_self_iff_true, Bool.false_eq_true, if_true, if_false] at hk ⊢ <;>
            omega

/-- The invariant holds along any action sequence. -/
theorem jobInv_foldl :
    ∀ (acts : List JobAct) (st : JobSystem), JobInv st →
      JobInv (acts.foldl jobStep st)
  | [], _, h => h
  | a :: rest, st, h => by
    simp only [List.foldl_cons]
    exact jobInv_foldl rest (jobStep st a) (jobInv_step st a h)

/-- Every state reachable from the initial state satisfies the
single-flight invariant. -/
theorem jobInv_run (acts : List JobAct) : JobInv (jobRun acts) :=
  jobInv_foldl acts jobInit jobInit_inv

/-- A submit for a kind whose flag is set is a complete no-op. -/
theorem jobStep_submit_busy (st : JobSystem) (k : JobKind)
    (o : JobOutcome) (d : Bool) (hb : getBusy st k = true) :
    jobStep st (.submit k o d) = st := by
  simp [jobStep, hb]

/-- As long as every live worker will reach its queued hand-off, the only
transition that clears a set `_op_in_progress` flag is the control thread
processing a terminal callback. -/
theorem busy_cleared_only_by_deliver (st : JobSystem) (k : JobKind) (a : JobAct)
    (hok : ∀ w ∈ st.workers, w.dispatchOk = true)
    (hb : getBusy st k = true)
    (hc : getBusy (jobStep st a) k = false) : a = .deliver := by
  cases a with
  | submit k' o d =>
    exfalso
    by_cases hb' : getBusy st k' = true
    · rw [jobStep_submit_busy st k' o d hb', hb] at hc
      exact Bool.noConfusion hc
    · have hb2 : getBusy st k' = false := by simpa using hb'
      have e1 : jobStep st (.submit k' o d)
          = { setBusy st k' true with workers := st.workers ++ [⟨k', o, d⟩] } := by
        simp [jobStep, hb2]
      rw [e1, getBusy_workers_update, getBusy_setBusy] at hc
      by_cases hkk : k = k'
      · rw [if_pos hkk] at hc
        exact Bool.noConfusion hc
      · rw [if_neg hkk, hb] at hc
        exact Bool.noConfusion hc
  | finishWorker i =>
    exfalso
    cases hw : st.workers[i]? with
    | none => simp [jobStep, hw, hb] at hc
    | some w =>
      have hdk : w.dispatchOk = true := hok w (List.getElem?_mem hw)
      have e1 : jobStep st (.finishWorker i)
          = { st with
                workers := st.workers.eraseIdx i,
                queue := st.queue
                  ++ [⟨w.kind, (run_git_worker w.kind w.outcome).1,
                      (run_git_worker w.kind w.outcome).2⟩] } := by
        simp [jobStep, hw, hdk]
      rw [e1, getBusy_wq_update, hb] at hc
      exact Bool.noConfusion hc
  | deliver => rfl

/-- C2: along every action sequence from the initial state, at most one
job per kind is in flight; a submit while the flag for that kind is set
returns with the state unchanged (no worker spawned, no callback
produced); and, when every live worker reaches its queued hand-off, the
flag is cleared only by the control thread processing the terminal
callback. -/
theorem single_flight_per_kind (acts : List JobAct) (k : JobKind) :
    pendingCount (jobRun acts) k ≤ 1
    ∧ (∀ (o : JobOutcome) (d : Bool), getBusy (jobRun acts) k = true →
        jobStep (jobRun acts) (.submit k o d) = jobRun acts)
    ∧ (∀ a : JobAct, (∀ w ∈ (jobRun acts).workers, w.dispatchOk = true) →
        getBusy (jobRun acts) k = true →
        getBusy (jobStep (jobRun acts) a) k = false → a = .deliver) := by
  have hinv := jobInv_run acts k
  refine ⟨?_, ?_, ?_⟩
  · by_cases hbusy : getBusy (jobRun acts) k <;> simp [hbusy] at hinv <;> omega
  · intro o d hb
    exact jobStep_submit_busy (jobRun acts) k o d hb
  · intro a hok hb hc
    exact busy_cleared_only_by_deliver (jobRun acts) k a hok hb hc

/-- Witness for `single_flight_per_kind`: after submitting a pull and
letting its worker emit, the pending count is bounded, a duplicate submit
is dropped, and delivery is what clears the flag. -/
theorem single_flight_per_kind_witness :
    pendingCount (jobRun [.submit .pull (.ret true "ok") true]) .pull ≤ 1
    ∧ jobStep (jobRun [.submit .pull (.ret true "ok") true])
        (.submit .pull (.ret false "again") false)
      = jobRun [.submit .pull (.ret true "ok") true]
    ∧ JobAct.deliver = JobAct.deliver :=
  ⟨(single_flight_per_kind [.submit .pull (.ret true "ok") true] .pull).1,
   (single_flight_per_kind [.submit .pull (.ret true "ok") true] .pull).2.1
      (.ret false "again") false (by decide),
   (single_flight_per_kind [.submit .pull (.ret true "ok") true, .finishWorker 0]
        .pull).2.2
      .deliver (by decide) (by decide) (by decide)⟩

/-- C3: a submitted job whose worker runs and whose callback is processed
produces exactly one terminal callback, carrying the pair computed by
`_run_git_worker`; afterwards no worker and no queued callback remain and
the flag is clear; and a job function that raises yields
`success = false`. -/
theorem worker_exactly_one_terminal_callback (k : JobKind) (o : JobOutcome) :
    (jobRun [.submit k o true, .finishWorker 0, .deliver]).delivered
      = [⟨k, (run_git_worker k o).1, (run_git_worker k o).2⟩]
    ∧ (jobRun [.submit k o true, .finishWorker 0, .deliver]).workers = []
    ∧ (jobRun [.submit k o true, .finishWorker 0, .deliver]).queue = []
    ∧ getBusy (jobRun [.submit k o true, .finishWorker 0, .deliver]) k = false
    ∧ (∀ e : String, (run_git_worker k (.exn e)).1 = false) := by
  cases k <;> cases o <;>
    simp [jobRun, jobStep, jobInit, getBusy, setBusy, run_git_worker, kindName]

end KiCadPartsSyncer
